import Mathlib

/-!
Shallow embedding of the Bean-Disease-Classification training pipeline.

The definitions below are translated from the repository sources:
  - `src/src/config/training_config.py` (enums and `TrainingConfig`),
  - `src/src/data/data_loader.py` (`BeanDataLoader.load_data`),
  - `src/src/models/model_builder.py` (`BeanModelBuilder`),
  - `src/src/training/trainer.py` (`train_model`, `prepare_data_pipeline`,
    `get_optimizer`).

Library calls are modelled by their documented semantics:
  - sklearn's `train_test_split` with an integer `train_size`, `shuffle=True`
    and `stratify=` performs a stratified shuffle split: it validates the
    requested sizes, groups the positions by class, allocates to the train
    side a per-class share that sums exactly to `train_size`, draws a seeded
    pseudo-random permutation of each class group, and returns the selected
    positions mapped back into the input array.  The numpy `RandomState`
    stream is modelled by a deterministic linear congruential generator; the
    exact permutation drawn differs from numpy bit-for-bit, but it is a
    genuine permutation that is a pure function of the seed, which is what
    the claims about sizes, disjointness and determinism depend on.
  - Keras layer objects are modelled by their `trainable` flag; setting
    `trainable` on a Keras model sets the flag of every sublayer, which is
    how `base_model.trainable = False/True` behaves in the source.
  - Python floats in the configuration are modelled by rationals; no claim
    depends on floating-point rounding.
-/

namespace BeanSpec

/-- DatasetSource enum from `training_config.py`. -/
inductive DatasetSource where
  | HUGGING_FACE
  | TENSORFLOW
  | KAGGLE
deriving DecidableEq, Repr

/-- BaseModel enum from `training_config.py`. -/
inductive BaseModel where
  | XCEPTION
  | EFFICIENT_NET_V2
  | MOBILE_NET
deriving DecidableEq, Repr

/-- Optimizer enum from `training_config.py`. -/
inductive Optimizer where
  | SGD
  | ADAM
  | NADAM
deriving DecidableEq, Repr

/-- TrainingConfig dataclass from `training_config.py`, with the same
defaults.  Python float fields are modelled as rationals. -/
structure TrainingConfig where
  base_model : BaseModel := .XCEPTION
  optimizer : Optimizer := .SGD
  preprocess_in_model : Bool := false
  dataset_source : DatasetSource := .TENSORFLOW
  train_size : Nat := 1034
  val_size : Nat := 133
  test_size : Nat := 128
  batch_size : Nat := 16
  epochs_pretrain : Nat := 5
  epochs_finetune : Nat := 10
  initial_lr : ℚ := 1/10
  finetune_lr : ℚ := 1/100
  dropout_rate : ℚ := 1/2
  patience : Nat := 10
  random_seed : Nat := 42
  experiment_name : String := "bean_disease_classification"
  run_name : String := "training_unknown"
  mlflow_tracking_uri : String := "http://mlflow:5000"
deriving DecidableEq, Repr

/-- Errors that can escape `load_data`.  `valueError` is the `ValueError`
raised by sklearn's split validation; `nameError` is the unbound-local
name error hit on the KAGGLE path.  `insufficientDataError` and
`dataUnavailableError` are the error kinds named by the specification's
taxonomy; they are declared here only so that statements can compare the
error actually raised against them — no code path in the repository
constructs them (the repository defines no such exception classes). -/
inductive LoadError where
  | valueError
  | nameError
  | insufficientDataError
  | dataUnavailableError
deriving DecidableEq, Repr

/-- Deterministic linear congruential generator standing in for the numpy
`RandomState` stream that `check_random_state(random_seed)` creates. -/
def lcg (s : Nat) : Nat := (s * 1103515245 + 12345) % 2147483648

/-- Fuel-indexed Fisher-Yates-style selection shuffle: repeatedly draw a
pseudo-random position, move that element to the front, and continue on the
remainder.  The fuel is the list length, so the fallback branch is never
reached from `shuffle`. -/
def shuffleFuel : Nat → Nat → List Nat → List Nat
  | 0, _, l => l
  | _ + 1, _, [] => []
  | fuel + 1, seed, x :: xs =>
    let l := x :: xs
    let j := lcg seed % l.length
    l.getD j 0 :: shuffleFuel fuel (lcg seed) (l.eraseIdx j)

/-- Seeded pseudo-random permutation of a list, modelling
`rng.permutation`. -/
def shuffle (seed : Nat) (l : List Nat) : List Nat := shuffleFuel l.length seed l

/-- Label of position `i` under the stratification array (`stratify=` in the
source); out-of-range positions default to 0, which never occurs on the
paths exercised by `load_data`. -/
def stratOf (strat : List Nat) (i : Nat) : Nat := strat.getD i 0

/-- Positions (into the split input) carrying class label `c`. -/
def classGroup (strat : List Nat) (n c : Nat) : List Nat :=
  (List.range n).filter (fun i => stratOf strat i == c)

/-- The distinct class labels, in first-occurrence order (numpy `unique`
up to ordering). -/
def classList (strat : List Nat) (n : Nat) : List Nat :=
  ((List.range n).map (stratOf strat)).dedup

/-- Per-class allocation of the requested `k` out of `n` examples,
proportional to class size, by cumulative rounding; the shares sum exactly
to `k` (as sklearn's `_approximate_mode` guarantees). -/
def allocCounts (k n : Nat) : List Nat → Nat → List Nat
  | [], _ => []
  | c :: rest, cum => ((cum + c) * k / n - cum * k / n) :: allocCounts k n rest (cum + c)

/-- The class groups after the per-class seeded permutation draw. -/
def shuffledGroups (strat : List Nat) (n seed : Nat) : List (List Nat) :=
  (classList strat n).map (fun c => shuffle (lcg (seed + c)) (classGroup strat n c))

/-- Core of the stratified shuffle split: positions selected for the train
side and for the complement, before being mapped back into the split
input.  Mirrors sklearn `StratifiedShuffleSplit._iter_indices`: per-class
allocation, per-class permutation, and a final permutation of each side. -/
def stratSplitPositions (strat : List Nat) (n k seed : Nat) : List Nat × List Nat :=
  let gs := shuffledGroups strat n seed
  let ps := gs.zip (allocCounts k n (gs.map List.length) 0)
  (shuffle (lcg (seed + 1)) ((ps.map (fun p => p.1.take p.2)).flatten),
   shuffle (lcg (seed + 2)) ((ps.map (fun p => p.1.drop p.2)).flatten))

/-- sklearn `train_test_split(xs, train_size=k, random_state=rs, shuffle=True,
stratify=strat)` with an integer `train_size` and `test_size=None`.
`check_random_state` uses the provided integer seed when one is given and
falls back to the global numpy random state otherwise; `load_data` always
passes `some config.random_seed`.  The three `valueError` branches are the
validations sklearn performs: integer `train_size` out of range, a class
with fewer than 2 members, and a side smaller than the number of classes. -/
def trainTestSplit (xs strat : List Nat) (trainSize : Nat) (randomState : Option Nat)
    (globalRng : Nat) : Except LoadError (List Nat × List Nat) :=
  let n := xs.length
  let seed := randomState.getD globalRng
  if trainSize = 0 ∨ n ≤ trainSize then .error .valueError
  else if ¬ ((classList strat n).all (fun c => 2 ≤ (classGroup strat n c).length)) then
    .error .valueError
  else if trainSize < (classList strat n).length
      ∨ n - trainSize < (classList strat n).length then .error .valueError
  else
    let pq := stratSplitPositions strat n trainSize seed
    .ok (pq.1.map (fun i => xs.getD i 0), pq.2.map (fun i => xs.getD i 0))

/-- Body shared by the TENSORFLOW and HUGGING_FACE branches of
`BeanDataLoader.load_data`: both enumerate the full labelled collection
(modelled as the given list of (image, label) pairs), then perform the two
nested stratified splits over the index range.  The first split runs on
`np.arange(len(images_list))` stratified by the label array; the second
runs on the remaining original-index array `temp_idx` stratified by
`labels_array[temp_idx]`.  The returned triple is the three index lists
that the generator-backed datasets capture. -/
def splitLoadedData (cfg : TrainingConfig) (ds : List (Nat × Nat)) (globalRng : Nat) :
    Except LoadError (List Nat × List Nat × List Nat) :=
  let labels := ds.map Prod.snd
  let n := labels.length
  match trainTestSplit (List.range n) labels cfg.train_size (some cfg.random_seed) globalRng with
  | .error e => .error e
  | .ok (trainIdx, tempIdx) =>
    match trainTestSplit tempIdx (tempIdx.map (fun i => labels.getD i 0)) cfg.val_size
        (some cfg.random_seed) globalRng with
    | .error e => .error e
    | .ok (valIdx, testIdx) => .ok (trainIdx, valIdx, testIdx)

/-- `BeanDataLoader.load_data`.  The TENSORFLOW and HUGGING_FACE branches
materialize `images_list`/`labels_list` and proceed to the splits; the
KAGGLE member of the enum has no branch, so `images_list` is never
assigned and the subsequent `len(images_list)` raises an unbound-local
name error. -/
def loadData (cfg : TrainingConfig) (ds : List (Nat × Nat)) (globalRng : Nat) :
    Except LoadError (List Nat × List Nat × List Nat) :=
  match cfg.dataset_source with
  | .TENSORFLOW => splitLoadedData cfg ds globalRng
  | .HUGGING_FACE => splitLoadedData cfg ds globalRng
  | .KAGGLE => .error .nameError

/-- Boolean pairwise disjointness of two index lists. -/
def disjointB (l₁ l₂ : List Nat) : Bool := l₁.all (fun x => !(l₂.contains x))

/-- Boolean check that every element is below `n` (is a valid dataset
index). -/
def allBelow (l : List Nat) (n : Nat) : Bool := l.all (fun x => decide (x < n))

/-- A Keras layer, observed through its `trainable` flag. -/
structure KLayer where
  trainable : Bool
deriving DecidableEq, Repr

/-- The model built by `BeanModelBuilder.build_model`: the backbone
sub-graph layers (shared, in order, with the returned `base_model`) and
the classification-head layers.  Python mutates the shared layer objects
in place; here each mutation returns the updated state. -/
@[ext]
structure ModelState where
  backbone : List KLayer
  head : List KLayer
deriving DecidableEq, Repr

/-- Keras `layer.trainable = b` on one layer. -/
def setTrainable (b : Bool) (_l : KLayer) : KLayer := { trainable := b }

/-- `BeanModelBuilder.build_model`.  The pretrained backbone (whose layer
count `nBackboneLayers` is fixed by the chosen Keras application) loads
with every layer trainable; the head (global-average-pooling, dropout,
dense+softmax) is appended; then the backbone is frozen — via
`base_model.trainable = False` (which sets every sublayer flag) when
preprocessing lives in the model, or via the per-layer loop otherwise.
Both paths leave every backbone layer untrainable. -/
def buildModel (cfg : TrainingConfig) (nBackboneLayers : Nat) : ModelState :=
  let base := List.replicate nBackboneLayers { trainable := true : KLayer }
  let head := [{ trainable := true : KLayer }, { trainable := true : KLayer },
    { trainable := true : KLayer }]
  if cfg.preprocess_in_model then
    { backbone := base.map (setTrainable false), head := head }
  else
    { backbone := base.map (setTrainable false), head := head }

/-- `BeanModelBuilder.prepare_for_finetuning`.  With in-model
preprocessing the whole backbone is made trainable and, for XCEPTION
only, the layers before index `length - 226` are re-frozen
(`base_model.layers[:-226]`).  With external preprocessing only the
XCEPTION branch exists: `base_model.layers[56:]` are unfrozen; the other
backbone families fall through with no change. -/
def prepareForFinetuning (cfg : TrainingConfig) (m : ModelState) : ModelState :=
  if cfg.preprocess_in_model then
    let bb := m.backbone.map (setTrainable true)
    let bb2 := if cfg.base_model = .XCEPTION then
        (bb.take (bb.length - 226)).map (setTrainable false) ++ bb.drop (bb.length - 226)
      else bb
    { m with backbone := bb2 }
  else
    if cfg.base_model = .XCEPTION then
      { m with backbone := m.backbone.take 56 ++ (m.backbone.drop 56).map (setTrainable true) }
    else m

/-- Phase tag handed to `get_optimizer`/`get_callbacks` (the source passes
the strings "pretrain" and "finetune"). -/
inductive Phase where
  | pretrain
  | finetune
deriving DecidableEq, Repr

/-- An optimizer instance as constructed by `get_optimizer`: family plus
the learning rate (and momentum for SGD) it was configured with. -/
inductive OptimizerInstance where
  | sgd (lr momentum : ℚ)
  | adam (lr : ℚ)
  | nadam (lr : ℚ)
deriving DecidableEq, Repr

/-- `get_optimizer` from `trainer.py`: SGD and ADAM read the
phase-appropriate configured rate; NADAM ignores both configured rates and
uses the fixed constants 1e-4 (pretrain) and 1e-5 (finetune). -/
def getOptimizer (cfg : TrainingConfig) (phase : Phase) : OptimizerInstance :=
  match cfg.optimizer with
  | .SGD => .sgd (if phase = .pretrain then cfg.initial_lr else cfg.finetune_lr) (9/10)
  | .ADAM => .adam (if phase = .pretrain then cfg.initial_lr else cfg.finetune_lr)
  | .NADAM => .nadam (if phase = .pretrain then 1/10000 else 1/100000)

/-- One stage of a `tf.data` pipeline as applied by
`prepare_data_pipeline`. -/
inductive PipeOp where
  | mapPreprocess
  | mapAugment
  | cache
  | shuffleOp (buffer : Nat)
  | batch (size : Nat)
  | prefetch
deriving DecidableEq, Repr

/-- `prepare_data_pipeline` from `trainer.py`, recorded as the op sequence
applied to each of the three datasets.  When preprocessing does not live
in the model graph, all three pipelines are first mapped through the
preprocessing sub-graph and the train pipeline additionally through the
augmentation sub-graph (after cache and shuffle). -/
def prepareDataPipeline (cfg : TrainingConfig) : List PipeOp × List PipeOp × List PipeOp :=
  let pre : List PipeOp := if cfg.preprocess_in_model then [] else [.mapPreprocess]
  let aug : List PipeOp := if cfg.preprocess_in_model then [] else [.mapAugment]
  (pre ++ [.cache, .shuffleOp cfg.train_size] ++ aug ++ [.batch cfg.batch_size, .prefetch],
   pre ++ [.cache, .batch cfg.batch_size, .prefetch],
   pre ++ [.cache, .batch cfg.batch_size, .prefetch])

/-- Observable steps taken by `train_model`, in order.  `fitEv` records the
phase and the backbone trainable flags at the moment `model.fit` runs. -/
inductive Event where
  | logParamsEv
  | loadDataEv
  | pipelineEv
  | buildModelEv
  | compileEv (phase : Phase)
  | fitEv (phase : Phase) (backboneFlags : List Bool)
  | prepareFinetuningEv
  | evaluateEv
  | saveModelEv
  | convertTfliteEv
  | logArtifactEv
deriving DecidableEq, Repr

/-- Training-curve oracle: the accuracy series that the two `model.fit`
calls would report.  The numeric outcome of gradient descent is an
external input to the orchestrator, not something the code computes
symbolically, so it is passed in. -/
structure FitOracle where
  acc : Phase → List ℚ
  valAcc : Phase → List ℚ

/-- The success payload assembled at the end of `train_model`.  The final
accuracies are the last entries of the relevant history
(`history.history[...][-1]`); `Option` models the list indexing. -/
structure TrainResult where
  status : String
  finalTrainAccuracy : Option ℚ
  finalValAccuracy : Option ℚ
  testAccuracy : ℚ
  testLoss : ℚ
  tfliteSizeBytes : Nat
deriving DecidableEq, Repr

/-- `train_model` from `trainer.py` as a step trace plus outcome.  MLflow
`log_params` runs first; an exception from `load_data` aborts the run
before any pipeline, model construction, fitting, evaluation, or artifact
logging.  On success: pipelines are prepared, the model is built, phase 1
compiles and fits, phase 2 (transition + recompile + fit) runs only when
`epochs_finetune > 0`, then evaluation, model save, TFLite conversion and
artifact logging follow.  The final metrics come from the fine-tune
history when phase 2 ran and from the pretrain history otherwise. -/
def trainModel (cfg : TrainingConfig) (ds : List (Nat × Nat)) (nLayers : Nat)
    (oracle : FitOracle) (testLoss testAcc : ℚ) (tfliteBytes : Nat) (globalRng : Nat) :
    List Event × Except LoadError TrainResult :=
  match loadData cfg ds globalRng with
  | .error e => ([Event.logParamsEv], .error e)
  | .ok _ =>
    let m1 := buildModel cfg nLayers
    let phase1Log : List Event := [Event.logParamsEv, Event.loadDataEv, Event.pipelineEv,
      Event.buildModelEv, Event.compileEv Phase.pretrain,
      Event.fitEv Phase.pretrain (m1.backbone.map KLayer.trainable)]
    if 0 < cfg.epochs_finetune then
      let m2 := prepareForFinetuning cfg m1
      (phase1Log ++ [Event.prepareFinetuningEv, Event.compileEv Phase.finetune,
        Event.fitEv Phase.finetune (m2.backbone.map KLayer.trainable),
        Event.evaluateEv, Event.saveModelEv, Event.convertTfliteEv, Event.logArtifactEv],
       .ok { status := "success",
             finalTrainAccuracy := (oracle.acc Phase.finetune).getLast?,
             finalValAccuracy := (oracle.valAcc Phase.finetune).getLast?,
             testAccuracy := testAcc, testLoss := testLoss,
             tfliteSizeBytes := tfliteBytes })
    else
      (phase1Log ++ [Event.evaluateEv, Event.saveModelEv, Event.convertTfliteEv,
        Event.logArtifactEv],
       .ok { status := "success",
             finalTrainAccuracy := (oracle.acc Phase.pretrain).getLast?,
             finalValAccuracy := (oracle.valAcc Phase.pretrain).getLast?,
             testAccuracy := testAcc, testLoss := testLoss,
             tfliteSizeBytes := tfliteBytes })

/-- Recognizer for the steps that only phase 2 performs: the fine-tune
transition, the second compile, and the second fit. -/
def isPhase2Event : Event → Bool
  | .prepareFinetuningEv => true
  | .compileEv .finetune => true
  | .fitEv .finetune _ => true
  | _ => false

/-- Pipeline stages that must never appear in the validation or test
pipelines: shuffling and augmentation. -/
def forbiddenEvalOp : PipeOp → Bool
  | .shuffleOp _ => true
  | .mapAugment => true
  | _ => false

/-- Concrete 12-example, 3-class dataset (4 examples per class) used to
exercise the definitions on a closed input. -/
def dsW : List (Nat × Nat) :=
  [(0, 0), (1, 0), (2, 0), (3, 0), (4, 1), (5, 1), (6, 1), (7, 1),
   (8, 2), (9, 2), (10, 2), (11, 2)]

/-- Configuration accepted by the loader on `dsW`. -/
def cfgW : TrainingConfig := { train_size := 3, val_size := 3 }

/-- Same as `cfgW` but with fine-tuning disabled. -/
def cfgW0 : TrainingConfig := { train_size := 3, val_size := 3, epochs_finetune := 0 }

/-- Configuration selecting the KAGGLE dataset source. -/
def cfgKaggle : TrainingConfig := { dataset_source := .KAGGLE }

/-- Configuration selecting the MOBILE_NET backbone with external
preprocessing (the default). -/
def cfgMobile : TrainingConfig := { base_model := .MOBILE_NET }

/-- Configuration requesting more training examples than `dsW` holds. -/
def cfgOversize : TrainingConfig := { train_size := 100 }

/-- Configuration whose first split succeeds on `dsW` but whose `val_size`
exhausts the whole remaining pool, so the second split's validation
fails. -/
def cfgOversizeVal : TrainingConfig := { train_size := 3, val_size := 9 }

/-- Concrete training-curve oracle with distinct pretrain and finetune
histories. -/
def oracleW : FitOracle :=
  { acc := fun p => match p with | .pretrain => [3/10, 7/10] | .finetune => [9/10],
    valAcc := fun p => match p with | .pretrain => [2/10, 6/10] | .finetune => [8/10] }

theorem getD_cons_eraseIdx_perm :
    ∀ (l : List Nat) (j : Nat), j < l.length → (l.getD j 0 :: l.eraseIdx j).Perm l := by
  intro l
  induction l with
  | nil => intro j h; simp at h
  | cons x xs ih =>
    intro j h
    match j with
    | 0 => simp [List.getD]
    | j + 1 =>
      have h' : j < xs.length := by simpa using h
      have step : (xs.getD j 0 :: x :: xs.eraseIdx j).Perm (x :: xs) :=
        ((List.Perm.swap x (xs.getD j 0) (xs.eraseIdx j))).trans ((ih j h').cons x)
      simpa [List.getD] using step

theorem shuffleFuel_perm : ∀ (fuel seed : Nat) (l : List Nat), (shuffleFuel fuel seed l).Perm l := by
  intro fuel
  induction fuel with
  | zero => intro seed l; simp [shuffleFuel]
  | succ fuel ih =>
    intro seed l
    match l with
    | [] => simp [shuffleFuel]
    | x :: xs =>
      have hj : lcg seed % (x :: xs).length < (x :: xs).length :=
        Nat.mod_lt _ (by simp)
      have hrec := ih (lcg seed) ((x :: xs).eraseIdx (lcg seed % (x :: xs).length))
      have := (hrec.cons ((x :: xs).getD (lcg seed % (x :: xs).length) 0)).trans
        (getD_cons_eraseIdx_perm (x :: xs) _ hj)
      simpa [shuffleFuel] using this

theorem shuffle_perm (seed : Nat) (l : List Nat) : (shuffle seed l).Perm l :=
  shuffleFuel_perm _ _ _

theorem mem_classGroup {strat : List Nat} {n c i : Nat} :
    i ∈ classGroup strat n c ↔ i < n ∧ stratOf strat i = c := by
  simp [classGroup, List.mem_filter, List.mem_range]

theorem nodup_classGroup (strat : List Nat) (n c : Nat) : (classGroup strat n c).Nodup :=
  List.Nodup.filter _ (List.nodup_range n)

theorem nodup_classList (strat : List Nat) (n : Nat) : (classList strat n).Nodup :=
  List.nodup_dedup _

theorem count_flatten_nat (L : List (List Nat)) (a : Nat) :
    L.flatten.count a = (L.map (List.count a)).sum := by
  induction L with
  | nil => simp
  | cons l L ih => simp [List.count_append, ih]

theorem sum_map_ite_nat (x t : Nat) :
    ∀ (cs : List Nat), cs.Nodup →
      (cs.map (fun c => if x = c then t else 0)).sum = if x ∈ cs then t else 0 := by
  intro cs
  induction cs with
  | nil => simp
  | cons c cs ih =>
    intro hnd
    rcases List.nodup_cons.mp hnd with ⟨hc, hcs⟩
    by_cases hxc : x = c
    · subst hxc
      simp [ih hcs, hc]
    · simp [hxc, ih hcs]

theorem count_classGroup (strat : List Nat) (n c a : Nat) (ha : a < n) :
    (classGroup strat n c).count a = if stratOf strat a = c then 1 else 0 := by
  by_cases hc : stratOf strat a = c
  · rw [if_pos hc]
    exact List.count_eq_one_of_mem (nodup_classGroup strat n c) (mem_classGroup.mpr ⟨ha, hc⟩)
  · rw [if_neg hc]
    exact List.count_eq_zero.mpr (fun hmem => hc (mem_classGroup.mp hmem).2)

theorem stratOf_mem_classList {strat : List Nat} {n a : Nat} (ha : a < n) :
    stratOf strat a ∈ classList strat n := by
  unfold classList
  rw [List.mem_dedup]
  exact List.mem_map.mpr ⟨a, List.mem_range.mpr ha, rfl⟩

/-- The per-class position groups partition the positions `0, …, n-1`. -/
theorem classGroups_flatten_perm (strat : List Nat) (n : Nat) :
    (((classList strat n).map (fun c => classGroup strat n c)).flatten).Perm (List.range n) := by
  rw [List.perm_iff_count]
  intro a
  by_cases ha : a < n
  · rw [count_flatten_nat, List.map_map]
    have hpt : ∀ c ∈ classList strat n,
        (List.count a ∘ fun c => classGroup strat n c) c
          = (fun c => if stratOf strat a = c then 1 else 0) c := by
      intro c _
      simpa using count_classGroup strat n c a ha
    rw [List.map_congr_left hpt,
      sum_map_ite_nat (stratOf strat a) 1 (classList strat n) (nodup_classList strat n),
      if_pos (stratOf_mem_classList ha),
      List.count_eq_one_of_mem (List.nodup_range n) (List.mem_range.mpr ha)]
  · rw [List.count_eq_zero.mpr, List.count_eq_zero.mpr]
    · simpa [List.mem_range] using ha
    · intro hmem
      rcases List.mem_flatten.mp hmem with ⟨l, hl, hal⟩
      rcases List.mem_map.mp hl with ⟨c, _, rfl⟩
      exact ha (mem_classGroup.mp hal).1

theorem sum_classGroup_lengths (strat : List Nat) (n : Nat) :
    (((classList strat n).map (fun c => classGroup strat n c)).map List.length).sum = n := by
  have h := (classGroups_flatten_perm strat n).length_eq
  rw [List.length_flatten] at h
  simpa using h

theorem allocCounts_length (k n : Nat) :
    ∀ (sizes : List Nat) (cum : Nat), (allocCounts k n sizes cum).length = sizes.length := by
  intro sizes
  induction sizes with
  | nil => intro cum; simp [allocCounts]
  | cons c rest ih => intro cum; simp [allocCounts, ih]

theorem allocCounts_sum (k n : Nat) :
    ∀ (sizes : List Nat) (cum : Nat),
      (allocCounts k n sizes cum).sum + cum * k / n = (cum + sizes.sum) * k / n := by
  intro sizes
  induction sizes with
  | nil => intro cum; simp [allocCounts]
  | cons c rest ih =>
    intro cum
    have h1 := ih (cum + c)
    have hmono : cum * k / n ≤ (cum + c) * k / n :=
      Nat.div_le_div_right (Nat.mul_le_mul_right k (Nat.le_add_right cum c))
    simp only [allocCounts, List.sum_cons]
    rw [show cum + (c + rest.sum) = cum + c + rest.sum from by omega]
    omega

theorem alloc_head_le (k n cum c : Nat) (hk : k ≤ n) (hn : 0 < n) :
    (cum + c) * k / n - cum * k / n ≤ c := by
  have e1 : (cum + c) * k = cum * k + c * k := by ring
  have e2 : c * k ≤ c * n := Nat.mul_le_mul_left c hk
  have h3 : (cum + c) * k / n ≤ (cum * k + c * n) / n :=
    Nat.div_le_div_right (by omega)
  have h4 : (cum * k + c * n) / n = cum * k / n + c := Nat.add_mul_div_right _ _ hn
  omega

theorem flatten_map_perm (cs : List Nat) (f g : Nat → List Nat)
    (h : ∀ c ∈ cs, (f c).Perm (g c)) :
    ((cs.map f).flatten).Perm ((cs.map g).flatten) := by
  induction cs with
  | nil => simp
  | cons c cs ih =>
    simp only [List.map_cons, List.flatten_cons]
    exact (h c (by simp)).append (ih (fun x hx => h x (by simp [hx])))

theorem takeDrop_flatten_perm (ps : List (List Nat × Nat)) :
    (((ps.map (fun p => p.1.take p.2)).flatten ++ (ps.map (fun p => p.1.drop p.2)).flatten)).Perm
      ((ps.map Prod.fst).flatten) := by
  induction ps with
  | nil => simp
  | cons p ps ih =>
    simp only [List.map_cons, List.flatten_cons]
    have hmid : ((ps.map (fun p => p.1.take p.2)).flatten
          ++ (p.1.drop p.2 ++ (ps.map (fun p => p.1.drop p.2)).flatten)).Perm
        (p.1.drop p.2 ++ ((ps.map (fun p => p.1.take p.2)).flatten
          ++ (ps.map (fun p => p.1.drop p.2)).flatten)) := by
      have h := (@List.perm_append_comm _
        ((ps.map (fun p => p.1.take p.2)).flatten) (p.1.drop p.2)).append_right
        ((ps.map (fun p => p.1.drop p.2)).flatten)
      simpa [List.append_assoc] using h
    have step1 : ((p.1.take p.2 ++ (ps.map (fun p => p.1.take p.2)).flatten)
          ++ (p.1.drop p.2 ++ (ps.map (fun p => p.1.drop p.2)).flatten)).Perm
        (p.1.take p.2 ++ (p.1.drop p.2 ++ ((ps.map (fun p => p.1.take p.2)).flatten
          ++ (ps.map (fun p => p.1.drop p.2)).flatten))) := by
      rw [List.append_assoc]
      exact List.Perm.append_left _ hmid
    have step2 : (p.1.take p.2 ++ (p.1.drop p.2 ++ ((ps.map (fun p => p.1.take p.2)).flatten
          ++ (ps.map (fun p => p.1.drop p.2)).flatten)))
        = p.1 ++ ((ps.map (fun p => p.1.take p.2)).flatten
          ++ (ps.map (fun p => p.1.drop p.2)).flatten) := by
      rw [← List.append_assoc, List.take_append_drop]
    exact (step1.trans (step2 ▸ List.Perm.refl _)).trans (List.Perm.append_left _ ih)

theorem shuffledGroups_flatten_perm (strat : List Nat) (n seed : Nat) :
    ((shuffledGroups strat n seed).flatten).Perm (List.range n) :=
  (flatten_map_perm (classList strat n) _ _
    (fun c _ => shuffle_perm (lcg (seed + c)) (classGroup strat n c))).trans
    (classGroups_flatten_perm strat n)

theorem stratSplitPositions_append_perm (strat : List Nat) (n k seed : Nat) :
    ((stratSplitPositions strat n k seed).1 ++ (stratSplitPositions strat n k seed).2).Perm
      (List.range n) := by
  unfold stratSplitPositions
  have hlen : (shuffledGroups strat n seed).length
      ≤ (allocCounts k n ((shuffledGroups strat n seed).map List.length) 0).length := by
    rw [allocCounts_length, List.length_map]
  have hfst : (((shuffledGroups strat n seed).zip
        (allocCounts k n ((shuffledGroups strat n seed).map List.length) 0)).map Prod.fst)
      = shuffledGroups strat n seed :=
    List.map_fst_zip _ _ hlen
  refine ((List.Perm.append (shuffle_perm _ _) (shuffle_perm _ _)).trans ?_)
  refine (takeDrop_flatten_perm _).trans ?_
  rw [hfst]
  exact shuffledGroups_flatten_perm strat n seed

theorem sum_shuffledGroups_lengths (strat : List Nat) (n seed : Nat) :
    ((shuffledGroups strat n seed).map List.length).sum = n := by
  have h := (shuffledGroups_flatten_perm strat n seed).length_eq
  rw [List.length_flatten] at h
  simpa using h

theorem flatten_take_length (k n : Nat) (hk : k ≤ n) (hn : 0 < n) :
    ∀ (gs : List (List Nat)) (cum : Nat),
      (((gs.zip (allocCounts k n (gs.map List.length) cum)).map
          (fun p => p.1.take p.2)).flatten).length
        = (allocCounts k n (gs.map List.length) cum).sum := by
  intro gs
  induction gs with
  | nil => intro cum; simp [allocCounts]
  | cons g gs ih =>
    intro cum
    have hle := alloc_head_le k n cum g.length hk hn
    simp only [List.map_cons, allocCounts, List.zip_cons_cons, List.flatten_cons,
      List.length_append, List.sum_cons, List.length_take]
    rw [ih (cum + g.length)]
    omega

theorem stratSplitPositions_fst_length (strat : List Nat) (n k seed : Nat)
    (hk : k ≤ n) (hn : 0 < n) :
    (stratSplitPositions strat n k seed).1.length = k := by
  unfold stratSplitPositions
  rw [(shuffle_perm _ _).length_eq,
    flatten_take_length k n hk hn (shuffledGroups strat n seed) 0]
  have hsum := allocCounts_sum k n ((shuffledGroups strat n seed).map List.length) 0
  rw [sum_shuffledGroups_lengths strat n seed] at hsum
  have h1 : (0 + n) * k / n = k := by
    rw [Nat.zero_add, Nat.mul_div_cancel_left k hn]
  have h0 : 0 * k / n = 0 := by simp
  omega

theorem nodup_map_getD {xs P : List Nat} (hxs : xs.Nodup) (hP : P.Nodup)
    (hb : ∀ i ∈ P, i < xs.length) : (P.map (fun i => xs.getD i 0)).Nodup := by
  refine List.Nodup.map_on ?_ hP
  intro i hi j hj hij
  have hi' := hb i hi
  have hj' := hb j hj
  rw [List.getD_eq_getElem xs 0 hi', List.getD_eq_getElem xs 0 hj'] at hij
  exact (List.Nodup.getElem_inj_iff hxs).mp hij

theorem mem_map_getD {xs P : List Nat} (hb : ∀ i ∈ P, i < xs.length) :
    ∀ x ∈ P.map (fun i => xs.getD i 0), x ∈ xs := by
  intro x hx
  rcases List.mem_map.mp hx with ⟨i, hi, rfl⟩
  rw [List.getD_eq_getElem xs 0 (hb i hi)]
  exact List.getElem_mem _

theorem disjoint_map_getD {xs P Q : List Nat} (hxs : xs.Nodup)
    (hbP : ∀ i ∈ P, i < xs.length) (hbQ : ∀ i ∈ Q, i < xs.length)
    (hdisj : ∀ i ∈ P, i ∉ Q) :
    ∀ x ∈ P.map (fun i => xs.getD i 0), x ∉ Q.map (fun i => xs.getD i 0) := by
  intro x hxP hxQ
  rcases List.mem_map.mp hxP with ⟨i, hi, rfl⟩
  rcases List.mem_map.mp hxQ with ⟨j, hj, hji⟩
  rw [List.getD_eq_getElem xs 0 (hbQ j hj), List.getD_eq_getElem xs 0 (hbP i hi)] at hji
  have : j = i := (List.Nodup.getElem_inj_iff hxs).mp hji
  exact hdisj i hi (this ▸ hj)

/-- Everything the successful branch of `train_test_split` guarantees: the
two returned pieces have exactly the requested sizes, are duplicate-free,
disjoint, and drawn from the input. -/
theorem trainTestSplit_ok {xs strat : List Nat} {k : Nat} {rs : Option Nat} {g : Nat}
    {a b : List Nat} (hnd : xs.Nodup)
    (h : trainTestSplit xs strat k rs g = .ok (a, b)) :
    a.length = k ∧ b.length = xs.length - k ∧ a.Nodup ∧ b.Nodup ∧
    (∀ x ∈ a, x ∈ xs) ∧ (∀ x ∈ b, x ∈ xs) ∧ (∀ x ∈ a, x ∉ b) ∧ k < xs.length := by
  simp only [trainTestSplit] at h
  split at h
  · exact absurd h (by simp)
  · split at h
    · exact absurd h (by simp)
    · split at h
      · exact absurd h (by simp)
      · rename_i hc1 hc2 hc3
        push_neg at hc1
        obtain ⟨hk0, hkn⟩ := hc1
        have hn : 0 < xs.length := by omega
        have hkle : k ≤ xs.length := Nat.le_of_lt hkn
        simp only [Except.ok.injEq, Prod.mk.injEq] at h
        obtain ⟨ha, hb⟩ := h
        set seed := rs.getD g with hseed
        set P := (stratSplitPositions strat xs.length k seed).1 with hP
        set Q := (stratSplitPositions strat xs.length k seed).2 with hQ
        have hperm := stratSplitPositions_append_perm strat xs.length k seed
        have hnodPQ : (P ++ Q).Nodup := hperm.nodup_iff.mpr (List.nodup_range _)
        obtain ⟨hndP, hndQ, hdisjPQ⟩ := List.nodup_append.mp hnodPQ
        have hmemP : ∀ i ∈ P, i < xs.length := fun i hi =>
          List.mem_range.mp (hperm.mem_iff.mp (List.mem_append.mpr (Or.inl hi)))
        have hmemQ : ∀ i ∈ Q, i < xs.length := fun i hi =>
          List.mem_range.mp (hperm.mem_iff.mp (List.mem_append.mpr (Or.inr hi)))
        have hlenP : P.length = k := stratSplitPositions_fst_length strat xs.length k seed hkle hn
        have hlenQ : Q.length = xs.length - k := by
          have hlen := hperm.length_eq
          rw [List.length_append, List.length_range, ← hP, ← hQ] at hlen
          omega
        subst ha hb
        refine ⟨by simp [hlenP], by simp [hlenQ], nodup_map_getD hnd hndP hmemP,
          nodup_map_getD hnd hndQ hmemQ, mem_map_getD hmemP, mem_map_getD hmemQ,
          disjoint_map_getD hnd hmemP hmemQ (fun i hi hiq => hdisjPQ hi hiq), hkn⟩

theorem disjointB_of {l₁ l₂ : List Nat} (h : ∀ x ∈ l₁, x ∉ l₂) : disjointB l₁ l₂ = true := by
  rw [disjointB, List.all_eq_true]
  intro x hx
  simpa using h x hx

theorem allBelow_of {l : List Nat} {n : Nat} (h : ∀ x ∈ l, x < n) : allBelow l n = true := by
  rw [allBelow, List.all_eq_true]
  intro x hx
  simpa using h x hx

theorem splitLoadedData_ok {cfg : TrainingConfig} {ds : List (Nat × Nat)} {g : Nat}
    {tr va te : List Nat} (h : splitLoadedData cfg ds g = .ok (tr, va, te)) :
    tr.length = cfg.train_size ∧ va.length = cfg.val_size ∧
    te.length = ds.length - cfg.train_size - cfg.val_size ∧
    disjointB tr va = true ∧ disjointB tr te = true ∧ disjointB va te = true ∧
    allBelow tr ds.length = true ∧ allBelow va ds.length = true ∧
    allBelow te ds.length = true := by
  simp only [splitLoadedData] at h
  cases hsplit1 : trainTestSplit (List.range (ds.map Prod.snd).length) (ds.map Prod.snd)
      cfg.train_size (some cfg.random_seed) g with
  | error e => rw [hsplit1] at h; simp at h
  | ok p =>
    obtain ⟨trainIdx, tempIdx⟩ := p
    rw [hsplit1] at h
    dsimp only at h
    cases hsplit2 : trainTestSplit tempIdx
        (tempIdx.map (fun i => (ds.map Prod.snd).getD i 0)) cfg.val_size
        (some cfg.random_seed) g with
    | error e => rw [hsplit2] at h; simp at h
    | ok q =>
      obtain ⟨valIdx, testIdx⟩ := q
      rw [hsplit2] at h
      simp only [Except.ok.injEq, Prod.mk.injEq] at h
      obtain ⟨h1, h2, h3⟩ := h
      rw [← h1, ← h2, ← h3]
      have hnd1 : (List.range (ds.map Prod.snd).length).Nodup := List.nodup_range _
      obtain ⟨hlen1, hlen2, hnodTr, hnodTemp, hsubTr, hsubTemp, hdisj1, hk1⟩ :=
        trainTestSplit_ok hnd1 hsplit1
      obtain ⟨hlenV, hlenTe, hnodV, hnodTe, hsubV, hsubTe, hdisjVT, hk2⟩ :=
        trainTestSplit_ok hnodTemp hsplit2
      have htrLt : ∀ x ∈ trainIdx, x < ds.length := by
        intro x hx
        have := hsubTr x hx
        rw [List.mem_range] at this
        simpa using this
      have htempLt : ∀ x ∈ tempIdx, x < ds.length := by
        intro x hx
        have := hsubTemp x hx
        rw [List.mem_range] at this
        simpa using this
      have hvLt : ∀ x ∈ valIdx, x < ds.length := fun x hx => htempLt x (hsubV x hx)
      have hteLt : ∀ x ∈ testIdx, x < ds.length := fun x hx => htempLt x (hsubTe x hx)
      have hdisjTrV : ∀ x ∈ trainIdx, x ∉ valIdx := fun x hx hv => hdisj1 x hx (hsubV x hv)
      have hdisjTrTe : ∀ x ∈ trainIdx, x ∉ testIdx := fun x hx ht => hdisj1 x hx (hsubTe x ht)
      refine ⟨hlen1, hlenV, ?_, disjointB_of hdisjTrV, disjointB_of hdisjTrTe,
        disjointB_of hdisjVT, allBelow_of htrLt, allBelow_of hvLt, allBelow_of hteLt⟩
      rw [hlenTe, hlen2]
      simp

/-- The only error `train_test_split` ever raises is the `ValueError` of
its size/stratification validation. -/
theorem trainTestSplit_error_eq {xs strat : List Nat} {k : Nat} {rs : Option Nat}
    {g : Nat} {e : LoadError} (h : trainTestSplit xs strat k rs g = .error e) :
    e = LoadError.valueError := by
  simp only [trainTestSplit] at h
  split at h
  · exact (Except.error.inj h).symm
  · split at h
    · exact (Except.error.inj h).symm
    · split at h
      · exact (Except.error.inj h).symm
      · exact absurd h (by simp)

/-- Any failure of the split phase of `load_data` — whichever of the two
nested stratified splits rejects its requested size — is the sklearn
`ValueError`. -/
theorem splitLoadedData_error_eq {cfg : TrainingConfig} {ds : List (Nat × Nat)}
    {g : Nat} {e : LoadError} (h : splitLoadedData cfg ds g = .error e) :
    e = LoadError.valueError := by
  simp only [splitLoadedData] at h
  cases h1 : trainTestSplit (List.range (ds.map Prod.snd).length) (ds.map Prod.snd)
      cfg.train_size (some cfg.random_seed) g with
  | error e1 =>
    rw [h1] at h
    dsimp only at h
    rw [← Except.error.inj h]
    exact trainTestSplit_error_eq h1
  | ok p =>
    obtain ⟨trainIdx, tempIdx⟩ := p
    rw [h1] at h
    dsimp only at h
    cases h2 : trainTestSplit tempIdx (tempIdx.map (fun i => (ds.map Prod.snd).getD i 0))
        cfg.val_size (some cfg.random_seed) g with
    | error e2 =>
      rw [h2] at h
      dsimp only at h
      rw [← Except.error.inj h]
      exact trainTestSplit_error_eq h2
    | ok q =>
      obtain ⟨valIdx, testIdx⟩ := q
      rw [h2] at h
      exact absurd h (by simp)

/-- On the sources that have a loading branch, every `load_data` failure
is the split-validation `ValueError`. -/
theorem loadData_error_eq {cfg : TrainingConfig} {ds : List (Nat × Nat)} {g : Nat}
    {e : LoadError} (h1 : cfg.dataset_source ≠ DatasetSource.KAGGLE)
    (h : loadData cfg ds g = .error e) : e = LoadError.valueError := by
  unfold loadData at h
  cases hsrc : cfg.dataset_source with
  | TENSORFLOW => rw [hsrc] at h; exact splitLoadedData_error_eq h
  | HUGGING_FACE => rw [hsrc] at h; exact splitLoadedData_error_eq h
  | KAGGLE => exact absurd hsrc h1

theorem map_setTrainable (b : Bool) (l : List KLayer) :
    l.map (setTrainable b) = List.replicate l.length { trainable := b : KLayer } := by
  induction l with
  | nil => simp
  | cons x xs ih => simp [setTrainable, ih, List.replicate_succ]

theorem buildModel_backbone (cfg : TrainingConfig) (n : Nat) :
    (buildModel cfg n).backbone = List.replicate n { trainable := false : KLayer } := by
  unfold buildModel
  split <;> simp [map_setTrainable, setTrainable]

/-- Backbone state after the fine-tune transition, as a function of the
incoming backbone only. -/
theorem prepareForFinetuning_backbone (cfg : TrainingConfig) (m : ModelState) :
    (prepareForFinetuning cfg m).backbone =
      if cfg.preprocess_in_model then
        (if cfg.base_model = .XCEPTION then
          List.replicate (m.backbone.length - 226) { trainable := false : KLayer }
            ++ List.replicate (m.backbone.length - (m.backbone.length - 226))
              { trainable := true : KLayer }
         else List.replicate m.backbone.length { trainable := true : KLayer })
      else
        (if cfg.base_model = .XCEPTION then
          m.backbone.take 56 ++ List.replicate (m.backbone.length - 56)
            { trainable := true : KLayer }
         else m.backbone) := by
  unfold prepareForFinetuning
  by_cases hpre : cfg.preprocess_in_model
  · by_cases hx : cfg.base_model = .XCEPTION
    · simp [hpre, hx, map_setTrainable, setTrainable, List.take_replicate,
        List.drop_replicate, Nat.min_def]
    · simp [hpre, hx, map_setTrainable, setTrainable]
  · by_cases hx : cfg.base_model = .XCEPTION
    · simp [hpre, hx, map_setTrainable, setTrainable]
    · simp [hpre, hx]

theorem prepareForFinetuning_head (cfg : TrainingConfig) (m : ModelState) :
    (prepareForFinetuning cfg m).head = m.head := by
  unfold prepareForFinetuning
  split
  · rfl
  · split <;> rfl

theorem prepareForFinetuning_backbone_length (cfg : TrainingConfig) (m : ModelState) :
    (prepareForFinetuning cfg m).backbone.length = m.backbone.length := by
  rw [prepareForFinetuning_backbone]
  split <;> split <;>
    simp [List.length_append, List.length_take, List.length_replicate]
  all_goals omega

/-- Applying the fine-tune transition twice gives the same layer state as
applying it once; the second application hits the same branches and
reapplies the same cutoff. -/
theorem prepareForFinetuning_idem (cfg : TrainingConfig) (m : ModelState) :
    prepareForFinetuning cfg (prepareForFinetuning cfg m) = prepareForFinetuning cfg m := by
  have hlen := prepareForFinetuning_backbone_length cfg m
  ext1
  · rw [prepareForFinetuning_backbone cfg (prepareForFinetuning cfg m), hlen,
      prepareForFinetuning_backbone cfg m]
    by_cases hpre : cfg.preprocess_in_model
    · by_cases hx : cfg.base_model = .XCEPTION
      · simp [hpre, hx]
      · simp [hpre, hx]
    · by_cases hx : cfg.base_model = .XCEPTION
      · simp only [hpre, hx, if_true, if_false, Bool.false_eq_true]
        rw [List.take_append_eq_append_take, List.take_take, List.take_replicate]
        have h1 : min 56 56 = 56 := by omega
        have h2 : min (56 - (m.backbone.take 56).length) (m.backbone.length - 56) = 0 := by
          simp [List.length_take]
          omega
        rw [h1, h2]
        simp
      · simp [hpre, hx]
  · rw [prepareForFinetuning_head]

/-- C1: whenever `load_data` accepts the configuration and returns the
three index lists, the train split has exactly `train_size` indices, the
validation split exactly `val_size`, the test split exactly the remainder
`total - train_size - val_size` (independent of the configured
`test_size`), the three lists are pairwise disjoint, and every index is a
valid index into the full dataset. -/
theorem claim1_load_data_split_partition (cfg : TrainingConfig) (ds : List (Nat × Nat))
    (g : Nat) (tr va te : List Nat) (h : loadData cfg ds g = .ok (tr, va, te)) :
    tr.length = cfg.train_size ∧ va.length = cfg.val_size ∧
    te.length = ds.length - cfg.train_size - cfg.val_size ∧
    disjointB tr va = true ∧ disjointB tr te = true ∧ disjointB va te = true ∧
    allBelow tr ds.length = true ∧ allBelow va ds.length = true ∧
    allBelow te ds.length = true := by
  unfold loadData at h
  cases hsrc : cfg.dataset_source with
  | TENSORFLOW => rw [hsrc] at h; exact splitLoadedData_ok h
  | HUGGING_FACE => rw [hsrc] at h; exact splitLoadedData_ok h
  | KAGGLE => rw [hsrc] at h; exact absurd h (by simp)

/-- C1 witness: the split invariants evaluated on the concrete run
`loadData cfgW dsW 0 = .ok ([5, 0, 10], [9, 6, 3], [11, 7, 4, 2, 8, 1])`. -/
theorem claim1_witness :
    ([5, 0, 10] : List Nat).length = cfgW.train_size ∧
    ([9, 6, 3] : List Nat).length = cfgW.val_size ∧
    ([11, 7, 4, 2, 8, 1] : List Nat).length = dsW.length - cfgW.train_size - cfgW.val_size ∧
    disjointB [5, 0, 10] [9, 6, 3] = true ∧
    disjointB [5, 0, 10] [11, 7, 4, 2, 8, 1] = true ∧
    disjointB [9, 6, 3] [11, 7, 4, 2, 8, 1] = true ∧
    allBelow [5, 0, 10] dsW.length = true ∧
    allBelow [9, 6, 3] dsW.length = true ∧
    allBelow [11, 7, 4, 2, 8, 1] dsW.length = true :=
  claim1_load_data_split_partition cfgW dsW 0 [5, 0, 10] [9, 6, 3] [11, 7, 4, 2, 8, 1]
    (by rfl)

/-- C2: `load_data` is a deterministic function of the configuration and
the dataset.  The only randomness in the source is the numpy stream that
`check_random_state` selects; because the code always passes the integer
`config.random_seed`, a fresh seeded generator is used and the ambient
global generator state (modelled by the extra argument) never influences
the result, so two independent invocations agree. -/
theorem claim2_load_data_deterministic (cfg : TrainingConfig) (ds : List (Nat × Nat))
    (g₁ g₂ : Nat) : loadData cfg ds g₁ = loadData cfg ds g₂ := rfl

/-- C3 counterexample: with `train_size = 100` on the 12-example dataset
the run aborts with the sklearn `ValueError`, not with an
`InsufficientDataError` (the repository never defines or raises one). -/
theorem claim3_counterexample :
    trainModel cfgOversize dsW 132 oracleW 0 0 0 0
      = ([Event.logParamsEv], .error LoadError.valueError) ∧
    LoadError.valueError ≠ LoadError.insufficientDataError := by
  constructor
  · rfl
  · decide

/-- C3 amended: for every configuration on a source with a loading
branch, whenever `load_data` fails — and its only failure paths are the
size/stratification validations of the two nested splits, covering an
out-of-range `train_size`, an out-of-range `val_size` on the remaining
pool, a class with fewer than two members, and a split side smaller than
the class count — the error is the sklearn `ValueError` (the repository
defines no `InsufficientDataError`), and the run aborts right after
MLflow parameter logging: no model is constructed and no artifact is
saved or logged. -/
theorem claim3_amended_unsatisfiable_aborts (cfg : TrainingConfig) (ds : List (Nat × Nat))
    (n : Nat) (oracle : FitOracle) (tl ta : ℚ) (tb g : Nat) (e : LoadError)
    (h1 : cfg.dataset_source ≠ DatasetSource.KAGGLE)
    (h2 : loadData cfg ds g = .error e) :
    e = LoadError.valueError ∧
    trainModel cfg ds n oracle tl ta tb g
      = ([Event.logParamsEv], .error LoadError.valueError) := by
  have he := loadData_error_eq h1 h2
  refine ⟨he, ?_⟩
  unfold trainModel
  rw [h2, he]

/-- C3 witness: the amended statement evaluated at a configuration whose
first split succeeds but whose `val_size` exhausts the remaining pool, so
the second split's validation rejects it: the run aborts with the
`ValueError` right after parameter logging. -/
theorem claim3_witness :
    LoadError.valueError = LoadError.valueError ∧
    trainModel cfgOversizeVal dsW 132 oracleW 0 0 0 0
      = ([Event.logParamsEv], .error LoadError.valueError) :=
  claim3_amended_unsatisfiable_aborts cfgOversizeVal dsW 132 oracleW 0 0 0 0
    LoadError.valueError (by decide) (by rfl)

/-- C4: for every configuration, every backbone layer is untrainable
immediately after `build_model` returns, and the backbone flags recorded
at the phase-1 `model.fit` call are all false — the backbone stays frozen
throughout phase 1, before any fine-tune transition. -/
theorem claim4_backbone_frozen_phase1 (cfg : TrainingConfig) (n : Nat)
    (ds : List (Nat × Nat)) (oracle : FitOracle) (tl ta : ℚ) (tb g : Nat) :
    ((buildModel cfg n).backbone.all (fun l => !l.trainable) = true) ∧
    (∀ flags, Event.fitEv Phase.pretrain flags ∈ (trainModel cfg ds n oracle tl ta tb g).1 →
      flags.all (fun b => !b) = true) := by
  constructor
  · rw [buildModel_backbone]
    simp
  · intro flags hmem
    unfold trainModel at hmem
    cases hld : loadData cfg ds g with
    | error e => rw [hld] at hmem; simp at hmem
    | ok t =>
      rw [hld] at hmem
      dsimp only at hmem
      by_cases hft : 0 < cfg.epochs_finetune
      · rw [if_pos hft] at hmem
        simp at hmem
        rw [hmem, buildModel_backbone]
        simp
      · rw [if_neg hft] at hmem
        simp at hmem
        rw [hmem, buildModel_backbone]
        simp

/-- C4 witness: a successful concrete run in which the phase-1 fit event
occurs with five all-frozen backbone flags. -/
theorem claim4_witness : (List.replicate 5 false).all (fun b => !b) = true :=
  (claim4_backbone_frozen_phase1 cfgW 5 dsW oracleW 0 0 0 0).2 (List.replicate 5 false)
    (by decide)

/-- C5 counterexample: for the MOBILE_NET backbone family (86 layers, with
the default external preprocessing), `prepare_for_finetuning` after
`build_model` leaves no backbone layer trainable — no non-empty suffix is
unfrozen, contradicting the claim that every backbone family gets one. -/
theorem claim5_counterexample :
    (buildModel cfgMobile 86).backbone.length = 86 ∧
    (prepareForFinetuning cfgMobile (buildModel cfgMobile 86)).backbone.any
      KLayer.trainable = false := by
  constructor
  · rfl
  · rfl

/-- C5 amended: only the XCEPTION family has a fine-tuning cutoff.  With
external preprocessing, XCEPTION unfreezes exactly the contiguous suffix
from layer index 56 (non-empty whenever the backbone has more than 56
layers; the real Xception has 132) while layers before the cutoff stay
frozen, and the other two families leave the backbone entirely frozen.
With in-model preprocessing every family's whole backbone becomes
trainable, XCEPTION re-freezing only the layers before index
`length - 226` (none, for the 132-layer backbone). -/
theorem claim5_amended_finetune_characterization (cfg : TrainingConfig) (n : Nat) :
    (prepareForFinetuning cfg (buildModel cfg n)).backbone =
      if cfg.preprocess_in_model then
        (if cfg.base_model = .XCEPTION then
          List.replicate (n - 226) { trainable := false : KLayer }
            ++ List.replicate (n - (n - 226)) { trainable := true : KLayer }
         else List.replicate n { trainable := true : KLayer })
      else
        (if cfg.base_model = .XCEPTION then
          List.replicate (min 56 n) { trainable := false : KLayer }
            ++ List.replicate (n - 56) { trainable := true : KLayer }
         else List.replicate n { trainable := false : KLayer }) := by
  rw [prepareForFinetuning_backbone, buildModel_backbone]
  simp [List.take_replicate, List.length_replicate]

/-- C6: running the fine-tune transition twice on the model produced by
`build_model` yields exactly the state (hence the same trainable-layer
set) produced by running it once; the second invocation takes the same
branches and raises no error (the embedded transition is total). -/
theorem claim6_finetune_transition_idempotent (cfg : TrainingConfig) (n : Nat) :
    prepareForFinetuning cfg (prepareForFinetuning cfg (buildModel cfg n))
      = prepareForFinetuning cfg (buildModel cfg n) :=
  prepareForFinetuning_idem cfg (buildModel cfg n)

/-- C7: with `epochs_finetune = 0` the orchestrator never performs a
phase-2 step (no fine-tune transition, no second compile, no second fit),
and on success the final train/validation accuracies are exactly the last
entries of the phase-1 history. -/
theorem claim7_zero_finetune_skips_phase2 (cfg : TrainingConfig) (ds : List (Nat × Nat))
    (n : Nat) (oracle : FitOracle) (tl ta : ℚ) (tb g : Nat)
    (h : cfg.epochs_finetune = 0) :
    ((trainModel cfg ds n oracle tl ta tb g).1.all (fun e => !(isPhase2Event e)) = true) ∧
    (∀ r, (trainModel cfg ds n oracle tl ta tb g).2 = .ok r →
      r.finalTrainAccuracy = (oracle.acc Phase.pretrain).getLast? ∧
      r.finalValAccuracy = (oracle.valAcc Phase.pretrain).getLast?) := by
  unfold trainModel
  cases hld : loadData cfg ds g with
  | error e =>
    refine ⟨by simp [isPhase2Event], ?_⟩
    intro r hr
    simp at hr
  | ok t =>
    dsimp only
    rw [if_neg (by omega)]
    refine ⟨by simp [isPhase2Event], ?_⟩
    intro r hr
    simp only [Except.ok.injEq] at hr
    rw [← hr]
    exact ⟨rfl, rfl⟩

/-- C7 witness: the concrete zero-finetune run ends with the pretrain
history's terminal metrics and a phase-2-free trace. -/
theorem claim7_witness :
    ((trainModel cfgW0 dsW 5 oracleW 0 0 0 0).1.all (fun e => !(isPhase2Event e)) = true) ∧
    ({ status := "success", finalTrainAccuracy := some (7/10),
       finalValAccuracy := some (6/10), testAccuracy := 0, testLoss := 0,
       tfliteSizeBytes := 0 : TrainResult }.finalTrainAccuracy
        = (oracleW.acc Phase.pretrain).getLast? ∧
     { status := "success", finalTrainAccuracy := some (7/10),
       finalValAccuracy := some (6/10), testAccuracy := 0, testLoss := 0,
       tfliteSizeBytes := 0 : TrainResult }.finalValAccuracy
        = (oracleW.valAcc Phase.pretrain).getLast?) :=
  ⟨(claim7_zero_finetune_skips_phase2 cfgW0 dsW 5 oracleW 0 0 0 0 rfl).1,
   (claim7_zero_finetune_skips_phase2 cfgW0 dsW 5 oracleW 0 0 0 0 rfl).2 _ (by rfl)⟩

/-- C8: `get_optimizer` hands SGD and ADAM the phase-appropriate
configured rate (`initial_lr` for pretrain, `finetune_lr` for finetune),
while NADAM — the third family — receives the fixed constants 1e-4 and
1e-5 for every configuration: the right-hand side of the NADAM equation
does not mention the universally quantified configuration's rates.  Each
call constructs a fresh optimizer value from the family and rate alone. -/
theorem claim8_optimizer_rates (cfg : TrainingConfig) (phase : Phase) :
    getOptimizer { cfg with optimizer := .SGD } phase
        = .sgd (if phase = .pretrain then cfg.initial_lr else cfg.finetune_lr) (9/10) ∧
    getOptimizer { cfg with optimizer := .ADAM } phase
        = .adam (if phase = .pretrain then cfg.initial_lr else cfg.finetune_lr) ∧
    getOptimizer { cfg with optimizer := .NADAM } phase
        = .nadam (if phase = .pretrain then 1/10000 else 1/100000) :=
  ⟨rfl, rfl, rfl⟩

/-- C9: the validation and test pipelines contain no shuffle and no
augmentation stage but do cache, batch by `batch_size`, and prefetch;
the train pipeline is the only one shuffled — with buffer exactly
`train_size` — and the only one augmented (augmentation appears in the
pipeline whenever preprocessing is external; otherwise it lives inside
the model graph). -/
theorem claim9_pipeline_shapes (cfg : TrainingConfig) :
    ((prepareDataPipeline cfg).2.1.all (fun op => !(forbiddenEvalOp op)) = true) ∧
    ((prepareDataPipeline cfg).2.2.all (fun op => !(forbiddenEvalOp op)) = true) ∧
    PipeOp.cache ∈ (prepareDataPipeline cfg).2.1 ∧
    PipeOp.batch cfg.batch_size ∈ (prepareDataPipeline cfg).2.1 ∧
    PipeOp.prefetch ∈ (prepareDataPipeline cfg).2.1 ∧
    PipeOp.cache ∈ (prepareDataPipeline cfg).2.2 ∧
    PipeOp.batch cfg.batch_size ∈ (prepareDataPipeline cfg).2.2 ∧
    PipeOp.prefetch ∈ (prepareDataPipeline cfg).2.2 ∧
    PipeOp.shuffleOp cfg.train_size ∈ (prepareDataPipeline cfg).1 ∧
    (cfg.preprocess_in_model = false → PipeOp.mapAugment ∈ (prepareDataPipeline cfg).1) := by
  by_cases hpre : cfg.preprocess_in_model <;>
    simp [prepareDataPipeline, hpre, forbiddenEvalOp]

/-- C9 witness: the pipeline-shape facts evaluated at the default
configuration (external preprocessing), where the train pipeline does
contain the augmentation stage. -/
theorem claim9_witness :
    ((prepareDataPipeline cfgW).2.1.all (fun op => !(forbiddenEvalOp op)) = true) ∧
    ((prepareDataPipeline cfgW).2.2.all (fun op => !(forbiddenEvalOp op)) = true) ∧
    PipeOp.shuffleOp cfgW.train_size ∈ (prepareDataPipeline cfgW).1 ∧
    PipeOp.mapAugment ∈ (prepareDataPipeline cfgW).1 := by
  have h := claim9_pipeline_shapes cfgW
  exact ⟨h.1, h.2.1, h.2.2.2.2.2.2.2.2.1, h.2.2.2.2.2.2.2.2.2 rfl⟩

/-- C10: for the KAGGLE member of the closed source enum, neither loading
branch runs, the example and label collections are never assigned, and
`load_data` dies with the unbound-local name error (not a
`DataUnavailableError`, which is never raised); a successful triple is
only ever returned for the TENSORFLOW and HUGGING_FACE sources. -/
theorem claim10_kaggle_name_error (cfg : TrainingConfig) (ds : List (Nat × Nat)) (g : Nat) :
    (cfg.dataset_source = DatasetSource.KAGGLE →
      loadData cfg ds g = .error LoadError.nameError) ∧
    (∀ t, loadData cfg ds g = .ok t →
      cfg.dataset_source = DatasetSource.TENSORFLOW
        ∨ cfg.dataset_source = DatasetSource.HUGGING_FACE) := by
  constructor
  · intro hk
    simp [loadData, hk]
  · intro t ht
    unfold loadData at ht
    cases hsrc : cfg.dataset_source with
    | TENSORFLOW => exact Or.inl rfl
    | HUGGING_FACE => exact Or.inr rfl
    | KAGGLE => rw [hsrc] at ht; exact absurd ht (by simp)

/-- C10 witness: the KAGGLE configuration fails with the name error on the
concrete dataset, and the source of a run that does succeed on it is
TENSORFLOW. -/
theorem claim10_witness :
    loadData cfgKaggle dsW 0 = .error LoadError.nameError ∧
    (cfgW.dataset_source = DatasetSource.TENSORFLOW
      ∨ cfgW.dataset_source = DatasetSource.HUGGING_FACE) :=
  ⟨(claim10_kaggle_name_error cfgKaggle dsW 0).1 rfl,
   (claim10_kaggle_name_error cfgW dsW 0).2 ([5, 0, 10], [9, 6, 3], [11, 7, 4, 2, 8, 1])
     (by rfl)⟩

end BeanSpec
